import Mathlib

/-!
Shallow embedding of `runner/runner.go` from the `container` repository.

The package is a fluent builder (`ContainerRunner`) that configures a single
container (name, image, ports, environment, cleanup options) and then drives a
two-phase lifecycle (`Start`, `Stop`) against an external docker engine.  The
engine is external to the repository, so it is modelled as an oracle
(`Engine`): a record giving the outcome of each engine operation.  `Start` and
`Stop` additionally return the list of engine calls they issued, so that
claims about which calls are performed become statements about that trace.

Go errors built with `fmt.Errorf("label: %w", err)` are modelled by the
`GoError.wrapped` constructor, which keeps the original error intact; the
sentinel `ErrNoContainerId` is its own constructor, distinct by identity.
Go maps (`nat.PortSet`, `nat.PortMap`) are modelled as association lists with
assign-or-replace insertion (`mapInsert`), which mirrors Go's `m[k] = v`.
-/

namespace ContainerLib

/-- `DefaultHostAddress = "127.0.0.1"` from the source. -/
def DefaultHostAddress : String := "127.0.0.1"

/-- `RegistryExtensionOptions = []string{".com", ".io", ".org", ".net"}`. -/
def RegistryExtensionOptions : List String := [".com", ".io", ".org", ".net"]

/-- Go `strings.Contains str substr`: `substr` occurs contiguously in `str`.
For the ASCII substrings used here, char-level infix equals Go's byte-level
containment. -/
def stringsContains (str substr : String) : Bool :=
  decide (substr.toList <:+: str.toList)

/-- `substringContainedInSlice` from the source: true if any member of
`substrs` is a substring of `str` (the source loops with an early
`return true`). -/
def substringContainedInSlice (str : String) (substrs : List String) : Bool :=
  substrs.any (fun s => stringsContains str s)

/-- One `nat.PortBinding` value (host ip + host port). -/
structure PortBinding where
  HostIP : String
  HostPort : String
deriving Repr, DecidableEq

/-- `ContainerRunnerOpts` from the source. -/
structure ContainerRunnerOpts where
  RemoveOnFinalization : Bool
deriving Repr, DecidableEq

/-- The `ContainerRunner` struct.  `exposedPorts : nat.PortSet` is a Go map
used as a set, kept as an association list to `Unit`; `portBindings :
nat.PortMap` maps a port to its binding list.  `opts` is a Go pointer, hence
`Option` (`none` = nil); `client` likewise.  `id` is the container identifier
managed by the runner itself. -/
structure ContainerRunner where
  name : String := ""
  image : String := ""
  ports : List String := []
  env : List String := []
  exposedPorts : List (String × Unit) := []
  portBindings : List (String × List PortBinding) := []
  opts : Option ContainerRunnerOpts := none
  client : Option Unit := none
  id : String := ""
deriving Repr, DecidableEq

/-- `NewContainerRunner()`: empty maps, empty env, options with
`RemoveOnFinalization: true`. -/
def NewContainerRunner : ContainerRunner :=
  { exposedPorts := []
    portBindings := []
    env := []
    opts := some { RemoveOnFinalization := true } }

/-- Go map assignment `m[k] = v`: replace the entry for `k` if present,
otherwise add one. -/
def mapInsert {α : Type} (m : List (String × α)) (k : String) (v : α) :
    List (String × α) :=
  match m with
  | [] => [(k, v)]
  | (k', v') :: rest =>
    if k' = k then (k, v) :: rest else (k', v') :: mapInsert rest k v

/-- The body of the loop in `WithPorts` for a single port `p`:
`port := strconv.Itoa(p)`; append to `ports`; add to the exposed-port set;
assign the binding `{HostIP: DefaultHostAddress, HostPort: port}`. -/
def addPort (r : ContainerRunner) (p : Int) : ContainerRunner :=
  let port := toString p
  { r with
    ports := r.ports ++ [port]
    exposedPorts := mapInsert r.exposedPorts port ()
    portBindings :=
      mapInsert r.portBindings port
        [{ HostIP := DefaultHostAddress, HostPort := port }] }

/-- `WithPorts(ports ...int)`: loop `addPort` over the argument list. -/
def ContainerRunner.WithPorts (r : ContainerRunner) (ports : List Int) :
    ContainerRunner :=
  ports.foldl addPort r

/-- `WithImage`: store the image; if it contains none of the registry
extensions, rewrite to `fmt.Sprintf("docker.io/library/%v", image)`. -/
def ContainerRunner.WithImage (r : ContainerRunner) (image : String) :
    ContainerRunner :=
  if substringContainedInSlice image RegistryExtensionOptions then
    { r with image := image }
  else
    { r with image := "docker.io/library/" ++ image }

/-- `WithName`: store the name; `len(name) == 0` falls back to
`DefaultContainerName`.  In the source `DefaultContainerName` is
`uuid.New().String()`, a package-level variable computed once per process by
the external uuid library; that external value is passed here as the
parameter `defaultContainerName`, the same value for every call in one
process. -/
def ContainerRunner.WithName (defaultContainerName : String)
    (r : ContainerRunner) (name : String) : ContainerRunner :=
  if name.length = 0 then { r with name := defaultContainerName }
  else { r with name := name }

/-- `WithEnvironmentVariable`: append `fmt.Sprintf("%v=%v", key, val)`. -/
def ContainerRunner.WithEnvironmentVariable (r : ContainerRunner)
    (key val : String) : ContainerRunner :=
  { r with env := r.env ++ [key ++ "=" ++ val] }

/-- `WithOptions`: replace the options pointer with the caller's, unchecked. -/
def ContainerRunner.WithOptions (r : ContainerRunner)
    (opts : Option ContainerRunnerOpts) : ContainerRunner :=
  { r with opts := opts }

/-- Errors as the runner produces them.  `engineErr` is an error coming back
from the docker engine (message abstracted); `wrapped label e` is
`fmt.Errorf("label: %w", e)`, which keeps `e` for inspection;
`errNoContainerId` is the sentinel `ErrNoContainerId`. -/
inductive GoError where
  | errNoContainerId
  | engineErr (msg : String)
  | wrapped (label : String) (err : GoError)
deriving Repr, DecidableEq

/-- One call to the docker engine, recorded in the order issued. -/
inductive EngineCall where
  | newEnvClient
  | imagePull (image : String)
  | containerCreate (image : String) (exposedPorts : List (String × Unit))
      (portBindings : List (String × List PortBinding)) (name : String)
  | containerStart (id : String)
  | containerStop (id : String) (timeoutMinutes : Nat)
  | containerRemove (id : String)
deriving Repr, DecidableEq

/-- The external docker engine as an oracle: the outcome of each operation the
runner can request.  Engine errors are abstracted to their message strings. -/
structure Engine where
  newEnvClient : Except String Unit
  imagePull : String → Except String Unit
  containerCreate : String → List (String × Unit) →
      List (String × List PortBinding) → String → Except String String
  containerStart : String → Except String Unit
  containerStop : String → Except String Unit
  containerRemove : String → Except String Unit

/-- `Start`: create the env client, pull the image, create the container
(storing `e.id = resp.ID` on success), then start it.  Each failure returns
the wrapped error at once; the trace records the engine calls issued. -/
def ContainerRunner.Start (e : ContainerRunner) (eng : Engine) :
    List EngineCall × ContainerRunner × Except GoError Unit :=
  match eng.newEnvClient with
  | .error msg =>
    ([.newEnvClient], { e with client := none },
      .error (.wrapped "creating env client" (.engineErr msg)))
  | .ok _ =>
    let e := { e with client := some () }
    match eng.imagePull e.image with
    | .error msg =>
      ([.newEnvClient, .imagePull e.image], e,
        .error (.wrapped "pulling image" (.engineErr msg)))
    | .ok _ =>
      match eng.containerCreate e.image e.exposedPorts e.portBindings e.name with
      | .error msg =>
        ([.newEnvClient, .imagePull e.image,
          .containerCreate e.image e.exposedPorts e.portBindings e.name], e,
          .error (.wrapped "creating container" (.engineErr msg)))
      | .ok respId =>
        let e := { e with id := respId }
        match eng.containerStart e.id with
        | .error msg =>
          ([.newEnvClient, .imagePull e.image,
            .containerCreate e.image e.exposedPorts e.portBindings e.name,
            .containerStart e.id], e,
            .error (.wrapped "starting container" (.engineErr msg)))
        | .ok _ =>
          ([.newEnvClient, .imagePull e.image,
            .containerCreate e.image e.exposedPorts e.portBindings e.name,
            .containerStart e.id], e, .ok ())

/-- `Stop`: guard `len(e.id) == 0` with the sentinel error (no engine call);
stop the container with a one-minute timeout; then, if
`e.opts.RemoveOnFinalization`, remove it.  Reading `e.opts` when the pointer
is nil is a nil-pointer dereference: modelled as result `none` (the calls
issued before the panic are still in the trace).  `Stop` assigns no field of
the runner, so the runner value in the result is `e` itself. -/
def ContainerRunner.Stop (e : ContainerRunner) (eng : Engine) :
    List EngineCall × Option (ContainerRunner × Except GoError Unit) :=
  if e.id.length = 0 then
    ([], some (e, .error .errNoContainerId))
  else
    match eng.containerStop e.id with
    | .error msg =>
      ([.containerStop e.id 1], some (e,
        .error (.wrapped "stopping container" (.engineErr msg))))
    | .ok _ =>
      match e.opts with
      | none => ([.containerStop e.id 1], none)
      | some o =>
        if o.RemoveOnFinalization then
          match eng.containerRemove e.id with
          | .error msg =>
            ([.containerStop e.id 1, .containerRemove e.id], some (e,
              .error (.wrapped "removing container" (.engineErr msg))))
          | .ok _ =>
            ([.containerStop e.id 1, .containerRemove e.id], some (e, .ok ()))
        else
          ([.containerStop e.id 1], some (e, .ok ()))

/-- An engine oracle with a fixed outcome per operation, for concrete runs. -/
def mkEngine (clientRes pullRes : Except String Unit)
    (createRes : Except String String)
    (startRes stopRes removeRes : Except String Unit) : Engine :=
  { newEnvClient := clientRes
    imagePull := fun _ => pullRes
    containerCreate := fun _ _ _ _ => createRes
    containerStart := fun _ => startRes
    containerStop := fun _ => stopRes
    containerRemove := fun _ => removeRes }

/-- An engine where every operation succeeds and create returns id `"cid"`. -/
def engAllOk : Engine :=
  mkEngine (.ok ()) (.ok ()) (.ok "cid") (.ok ()) (.ok ()) (.ok ())

/-- An engine where everything succeeds except `ContainerStart`. -/
def engStartFails : Engine :=
  mkEngine (.ok ()) (.ok ()) (.ok "cid") (.error "start failed") (.ok ()) (.ok ())

/-- A runner as it stands after a successful `Start` against `engAllOk`. -/
def runnerWithId : ContainerRunner :=
  { NewContainerRunner with id := "cid", client := some () }

/-- The port-binding map is consistent: every key maps to the single binding
`{HostIP: DefaultHostAddress, HostPort: key}` that `WithPorts` writes. -/
def BindingsOk (r : ContainerRunner) : Prop :=
  ∀ a, a ∈ r.portBindings.map Prod.fst →
    List.lookup a r.portBindings =
      some [{ HostIP := DefaultHostAddress, HostPort := a }]

-- Helper lemmas ------------------------------------------------------------

theorem string_length_eq_zero (s : String) : s.length = 0 ↔ s = "" := by
  constructor
  · intro h; cases s; simp_all [String.length]
  · intro h; simp [h]

theorem substringContainedInSlice_iff (str : String) (l : List String) :
    substringContainedInSlice str l = true ↔
      ∃ s ∈ l, s.toList <:+: str.toList := by
  simp [substringContainedInSlice, stringsContains, List.any_eq_true]

/-- C2 counterexample: after a `Start` that failed at the container-start
step — so no `Start` call has succeeded — the stored identifier is already
`"cid"`, and `Stop` issues the engine stop and remove calls and returns
success instead of the `ErrNoContainerId` sentinel. -/
theorem c2_counterexample :
    (NewContainerRunner.Start engStartFails).2.2 =
      .error (.wrapped "starting container" (.engineErr "start failed")) ∧
    (NewContainerRunner.Start engStartFails).2.1.Stop engAllOk =
      ([.containerStop "cid" 1, .containerRemove "cid"],
        some ((NewContainerRunner.Start engStartFails).2.1, .ok ())) := by
  constructor <;> rfl

/-- C2 (amended): on a runner whose stored container id is empty — which
holds before any `Start` and after a `Start` that failed before container
creation, but not after a `Start` that failed at the container-start step —
`Stop` returns the sentinel `ErrNoContainerId` without issuing any engine
call; the sentinel is a distinct identity from every wrapped engine error. -/
theorem c2_stop_before_start (r : ContainerRunner) (eng : Engine)
    (h : r.id = "") :
    r.Stop eng = ([], some (r, .error .errNoContainerId)) ∧
    (∀ label e, GoError.errNoContainerId ≠ GoError.wrapped label e) ∧
    (∀ msg, GoError.errNoContainerId ≠ GoError.engineErr msg) := by
  refine ⟨?_, ?_, ?_⟩
  · simp [ContainerRunner.Stop, h]
  · intro label e hc; exact GoError.noConfusion hc
  · intro msg hc; exact GoError.noConfusion hc

theorem c2_stop_before_start_witness :
    NewContainerRunner.Stop engAllOk =
      ([], some (NewContainerRunner, .error .errNoContainerId)) :=
  (c2_stop_before_start NewContainerRunner engAllOk rfl).1

/-- C3: `WithImage` stores `docker.io/library/<name>` when the name contains
none of the registry-suffix substrings, and stores the name unchanged when it
contains at least one of them. -/
theorem c3_with_image_registry_heuristic (r : ContainerRunner) (image : String) :
    ((∀ s ∈ RegistryExtensionOptions, ¬ s.toList <:+: image.toList) →
      (r.WithImage image).image = "docker.io/library/" ++ image) ∧
    ((∃ s ∈ RegistryExtensionOptions, s.toList <:+: image.toList) →
      (r.WithImage image).image = image) := by
  constructor
  · intro hnone
    have hfalse : substringContainedInSlice image RegistryExtensionOptions = false := by
      rw [← Bool.not_eq_true, substringContainedInSlice_iff]
      push_neg
      exact hnone
    simp [ContainerRunner.WithImage, hfalse]
  · intro hex
    have htrue := (substringContainedInSlice_iff image RegistryExtensionOptions).mpr hex
    simp [ContainerRunner.WithImage, htrue]

theorem c3_with_image_registry_heuristic_witness :
    (NewContainerRunner.WithImage "mongo").image = "docker.io/library/mongo" ∧
    (NewContainerRunner.WithImage "quay.io/mongo").image = "quay.io/mongo" :=
  ⟨(c3_with_image_registry_heuristic NewContainerRunner "mongo").1 (by decide),
   (c3_with_image_registry_heuristic NewContainerRunner "quay.io/mongo").2
     ⟨".io", by decide, by decide⟩⟩

/-- C7: `WithName ""` stores the process-wide default name (the same value
for every runner in the process, non-empty whenever the uuid value is), and
`WithName x` stores exactly `x` for every non-empty `x`. -/
theorem c7_with_name (dn : String) (hdn : dn ≠ "") (r r' : ContainerRunner) :
    (ContainerRunner.WithName dn r "").name = dn ∧
    (ContainerRunner.WithName dn r "").name ≠ "" ∧
    (ContainerRunner.WithName dn r "").name =
      (ContainerRunner.WithName dn r' "").name ∧
    (∀ x, x ≠ "" → (ContainerRunner.WithName dn r x).name = x) := by
  refine ⟨?_, ?_, ?_, ?_⟩
  · simp [ContainerRunner.WithName]
  · simp [ContainerRunner.WithName, hdn]
  · simp [ContainerRunner.WithName]
  · intro x hx
    have hlen : ¬ x.length = 0 := by
      rw [string_length_eq_zero]; exact hx
    simp [ContainerRunner.WithName, hlen]

theorem c7_with_name_witness :
    (ContainerRunner.WithName "3c8ae2bc-11d4-4e32-8f92-5a7b0c9d1e2f"
        NewContainerRunner "").name = "3c8ae2bc-11d4-4e32-8f92-5a7b0c9d1e2f" ∧
    (ContainerRunner.WithName "3c8ae2bc-11d4-4e32-8f92-5a7b0c9d1e2f"
        NewContainerRunner "mongo").name = "mongo" :=
  ⟨(c7_with_name "3c8ae2bc-11d4-4e32-8f92-5a7b0c9d1e2f" (by decide)
      NewContainerRunner NewContainerRunner).1,
   (c7_with_name "3c8ae2bc-11d4-4e32-8f92-5a7b0c9d1e2f" (by decide)
      NewContainerRunner NewContainerRunner).2.2.2 "mongo" (by decide)⟩

/-- C9: the image rewrite of `WithImage` is idempotent: feeding the stored
image back through `WithImage` leaves it unchanged, because the rewritten
form `docker.io/library/<s>` always contains the `.io` suffix substring. -/
theorem c9_with_image_idempotent (r : ContainerRunner) (s : String) :
    ((r.WithImage s).WithImage (r.WithImage s).image).image =
      (r.WithImage s).image := by
  by_cases h : substringContainedInSlice s RegistryExtensionOptions = true
  · simp [ContainerRunner.WithImage, h]
  · have h' : substringContainedInSlice s RegistryExtensionOptions = false := by
      simpa using h
    have hio : substringContainedInSlice ("docker.io/library/" ++ s)
        RegistryExtensionOptions = true := by
      rw [substringContainedInSlice_iff]
      refine ⟨".io", by decide, ?_⟩
      have h1 : ".io".toList <:+: "docker.io/library/".toList := by decide
      have h2 : "docker.io/library/".toList <+:
          ("docker.io/library/" ++ s).toList := by
        have hdata : ("docker.io/library/" ++ s).toList =
            "docker.io/library/".toList ++ s.toList := by
          simp [String.toList, String.data_append]
        rw [hdata]
        exact List.prefix_append _ _
      exact h1.trans h2.isInfix
    simp [ContainerRunner.WithImage, h', hio]

/-- C1 counterexample: against an engine where container creation succeeds
(returning id `"cid"`) but the container-start step fails, `Start` returns an
error yet leaves the stored identifier non-empty — refuting "a Start call
that returns an error leaves the identifier empty". -/
theorem c1_counterexample :
    (NewContainerRunner.Start engStartFails).2.2 =
      .error (.wrapped "starting container" (.engineErr "start failed")) ∧
    (NewContainerRunner.Start engStartFails).2.1.id = "cid" := by
  constructor <;> rfl

/-- C1 (amended): a fresh runner's identifier is empty; a `Start` that fails
before the container-creation step leaves it empty; once container creation
succeeds the identifier is set to the engine-returned id — even when the
final container-start step then fails — and in particular a successful
`Start` leaves it equal to the created container's id. -/
theorem c1_id_lifecycle (r : ContainerRunner) (eng : Engine) (h : r.id = "") :
    NewContainerRunner.id = "" ∧
    (∀ msg, eng.newEnvClient = .error msg → (r.Start eng).2.1.id = "") ∧
    (∀ msg, eng.newEnvClient = .ok () → eng.imagePull r.image = .error msg →
      (r.Start eng).2.1.id = "") ∧
    (∀ msg, eng.newEnvClient = .ok () → eng.imagePull r.image = .ok () →
      eng.containerCreate r.image r.exposedPorts r.portBindings r.name = .error msg →
      (r.Start eng).2.1.id = "") ∧
    (∀ cid, eng.newEnvClient = .ok () → eng.imagePull r.image = .ok () →
      eng.containerCreate r.image r.exposedPorts r.portBindings r.name = .ok cid →
      (r.Start eng).2.1.id = cid) ∧
    ((r.Start eng).2.2 = .ok () →
      ∃ cid, eng.containerCreate r.image r.exposedPorts r.portBindings r.name = .ok cid ∧
        (r.Start eng).2.1.id = cid) := by
  refine ⟨rfl, ?_, ?_, ?_, ?_, ?_⟩
  · intro msg hc
    simp [ContainerRunner.Start, hc, h]
  · intro msg hc hp
    simp [ContainerRunner.Start, hc, hp, h]
  · intro msg hc hp hcr
    simp [ContainerRunner.Start, hc, hp, hcr, h]
  · intro cid hc hp hcr
    cases hs : eng.containerStart cid <;>
      simp [ContainerRunner.Start, hc, hp, hcr, hs]
  · intro hok
    cases hc : eng.newEnvClient with
    | error msg => simp [ContainerRunner.Start, hc] at hok
    | ok u =>
      cases hp : eng.imagePull r.image with
      | error msg => simp [ContainerRunner.Start, hc, hp] at hok
      | ok u' =>
        cases hcr : eng.containerCreate r.image r.exposedPorts r.portBindings r.name with
        | error msg => simp [ContainerRunner.Start, hc, hp, hcr] at hok
        | ok cid =>
          refine ⟨cid, rfl, ?_⟩
          cases hs : eng.containerStart cid <;>
            simp [ContainerRunner.Start, hc, hp, hcr, hs]

theorem c1_id_lifecycle_witness :
    (NewContainerRunner.Start engAllOk).2.1.id = "cid" :=
  (c1_id_lifecycle NewContainerRunner engAllOk rfl).2.2.2.2.1 "cid" rfl rfl rfl

/-- C5: the default constructor enables remove-on-stop; for a runner with a
stored id, a successful `Stop` under the default options issues the engine
stop call and then the engine remove call, while with removal disabled it
issues only the stop call. -/
theorem c5_default_remove_on_stop (r : ContainerRunner) (eng : Engine)
    (hid : r.id ≠ "") :
    NewContainerRunner.opts = some { RemoveOnFinalization := true } ∧
    (r.opts = some { RemoveOnFinalization := true } →
      eng.containerStop r.id = .ok () → eng.containerRemove r.id = .ok () →
      r.Stop eng = ([.containerStop r.id 1, .containerRemove r.id],
        some (r, .ok ()))) ∧
    (r.opts = some { RemoveOnFinalization := false } →
      eng.containerStop r.id = .ok () →
      r.Stop eng = ([.containerStop r.id 1], some (r, .ok ()))) := by
  have hlen : ¬ r.id.length = 0 := by
    rw [string_length_eq_zero]; exact hid
  refine ⟨rfl, ?_, ?_⟩
  · intro ho hstop hrm
    simp [ContainerRunner.Stop, hlen, ho, hstop, hrm]
  · intro ho hstop
    simp [ContainerRunner.Stop, hlen, ho, hstop]

theorem c5_default_remove_on_stop_witness :
    runnerWithId.Stop engAllOk =
      ([.containerStop "cid" 1, .containerRemove "cid"],
        some (runnerWithId, .ok ())) :=
  (c5_default_remove_on_stop runnerWithId engAllOk (by decide)).2.1 rfl rfl rfl

/-- C6: every failing step of `Start` or `Stop` returns the underlying engine
error wrapped with the stage label of that step, issues no later engine call,
and leaves the runner exactly as it was after the last successful step. -/
theorem c6_stage_labels (r : ContainerRunner) (eng : Engine) :
    (∀ msg, eng.newEnvClient = .error msg →
      r.Start eng = ([.newEnvClient], { r with client := none },
        .error (.wrapped "creating env client" (.engineErr msg)))) ∧
    (∀ msg, eng.newEnvClient = .ok () → eng.imagePull r.image = .error msg →
      r.Start eng = ([.newEnvClient, .imagePull r.image],
        { r with client := some () },
        .error (.wrapped "pulling image" (.engineErr msg)))) ∧
    (∀ msg, eng.newEnvClient = .ok () → eng.imagePull r.image = .ok () →
      eng.containerCreate r.image r.exposedPorts r.portBindings r.name = .error msg →
      r.Start eng = ([.newEnvClient, .imagePull r.image,
        .containerCreate r.image r.exposedPorts r.portBindings r.name],
        { r with client := some () },
        .error (.wrapped "creating container" (.engineErr msg)))) ∧
    (∀ msg cid, eng.newEnvClient = .ok () → eng.imagePull r.image = .ok () →
      eng.containerCreate r.image r.exposedPorts r.portBindings r.name = .ok cid →
      eng.containerStart cid = .error msg →
      r.Start eng = ([.newEnvClient, .imagePull r.image,
        .containerCreate r.image r.exposedPorts r.portBindings r.name,
        .containerStart cid],
        { r with client := some (), id := cid },
        .error (.wrapped "starting container" (.engineErr msg)))) ∧
    (∀ msg, r.id ≠ "" → eng.containerStop r.id = .error msg →
      r.Stop eng = ([.containerStop r.id 1],
        some (r, .error (.wrapped "stopping container" (.engineErr msg))))) ∧
    (∀ msg o, r.id ≠ "" → r.opts = some o → o.RemoveOnFinalization = true →
      eng.containerStop r.id = .ok () → eng.containerRemove r.id = .error msg →
      r.Stop eng = ([.containerStop r.id 1, .containerRemove r.id],
        some (r, .error (.wrapped "removing container" (.engineErr msg))))) := by
  refine ⟨?_, ?_, ?_, ?_, ?_, ?_⟩
  · intro msg hc
    simp [ContainerRunner.Start, hc]
  · intro msg hc hp
    simp [ContainerRunner.Start, hc, hp]
  · intro msg hc hp hcr
    simp [ContainerRunner.Start, hc, hp, hcr]
  · intro msg cid hc hp hcr hs
    simp [ContainerRunner.Start, hc, hp, hcr, hs]
  · intro msg hid hstop
    have hlen : ¬ r.id.length = 0 := by
      rw [string_length_eq_zero]; exact hid
    simp [ContainerRunner.Stop, hlen, hstop]
  · intro msg o hid ho hrof hstop hrm
    have hlen : ¬ r.id.length = 0 := by
      rw [string_length_eq_zero]; exact hid
    simp [ContainerRunner.Stop, hlen, ho, hrof, hstop, hrm]

theorem c6_stage_labels_witness :
    NewContainerRunner.Start engStartFails =
      ([.newEnvClient, .imagePull "", .containerCreate "" [] [] "",
        .containerStart "cid"],
        { NewContainerRunner with client := some (), id := "cid" },
        .error (.wrapped "starting container" (.engineErr "start failed"))) :=
  (c6_stage_labels NewContainerRunner engStartFails).2.2.2.1
    "start failed" "cid" rfl rfl rfl rfl

-- `Stop` assigns no field of the runner, so whenever it returns normally the
-- runner value it hands back is the input runner itself.
theorem stop_runner_unchanged (r : ContainerRunner) (eng : Engine)
    (r' : ContainerRunner) (res : Except GoError Unit)
    (h : (r.Stop eng).2 = some (r', res)) : r' = r := by
  simp only [ContainerRunner.Stop] at h
  split at h
  · simp_all
  · split at h
    · simp_all
    · split at h
      · simp_all
      · split at h
        · split at h <;> simp_all
        · simp_all

/-- C8: `Stop` never resets the stored identifier: any normal return hands
back the runner with the same id, and on a runner whose id is set a second
`Stop` again begins with the engine stop call instead of returning the
missing-identifier sentinel. -/
theorem c8_stop_keeps_id (r : ContainerRunner) (eng : Engine)
    (r' : ContainerRunner) (res : Except GoError Unit)
    (h : (r.Stop eng).2 = some (r', res)) :
    r'.id = r.id ∧
    (r.id ≠ "" →
      ((r'.Stop eng).1).head? = some (.containerStop r.id 1) ∧
      (∀ r'', (r'.Stop eng).2 ≠ some (r'', .error .errNoContainerId))) := by
  have hr : r' = r := stop_runner_unchanged r eng r' res h
  subst hr
  refine ⟨rfl, ?_⟩
  intro hid
  have hlen : ¬ r'.id.length = 0 := by
    rw [string_length_eq_zero]; exact hid
  constructor
  · simp only [ContainerRunner.Stop, hlen, if_false]
    split
    · rfl
    · split
      · rfl
      · split
        · split <;> rfl
        · rfl
  · intro r''
    simp only [ContainerRunner.Stop, hlen, if_false]
    split
    · simp
    · split
      · simp
      · split
        · split <;> simp
        · simp

theorem c8_stop_keeps_id_witness :
    runnerWithId.id = "cid" ∧
    ((runnerWithId.Stop engAllOk).1).head? = some (.containerStop "cid" 1) := by
  have h := c8_stop_keeps_id runnerWithId engAllOk runnerWithId (.ok ()) rfl
  exact ⟨h.1.trans rfl, (h.2 (by decide)).1⟩

/-- C10: `Stop` reads `opts.RemoveOnFinalization` without a nil guard: the
default constructor stores a non-nil options pointer, `WithOptions` stores
the caller's pointer unchecked, a runner with a stored id, nil options and a
succeeding engine stop call panics (nil dereference) right after the stop
call, and with a non-nil options pointer `Stop` always returns normally. -/
theorem c10_nil_options_deref (r : ContainerRunner) (eng : Engine) :
    NewContainerRunner.opts ≠ none ∧
    (r.WithOptions none).opts = none ∧
    (r.id ≠ "" → eng.containerStop r.id = .ok () →
      (r.WithOptions none).Stop eng = ([.containerStop r.id 1], none)) ∧
    (r.opts ≠ none → (r.Stop eng).2 ≠ none) := by
  refine ⟨by simp [NewContainerRunner], rfl, ?_, ?_⟩
  · intro hid hstop
    have hlen : ¬ r.id.length = 0 := by
      rw [string_length_eq_zero]; exact hid
    simp [ContainerRunner.Stop, ContainerRunner.WithOptions, hlen, hstop]
  · intro hopts
    simp only [ContainerRunner.Stop]
    split
    · simp
    · split
      · simp
      · split
        · simp_all
        · split
          · split <;> simp
          · simp

theorem c10_nil_options_deref_witness :
    (runnerWithId.WithOptions none).Stop engAllOk =
      ([.containerStop "cid" 1], none) :=
  (c10_nil_options_deref runnerWithId engAllOk).2.2.1 (by decide) rfl

-- Association-list lemmas for Go-map insertion -----------------------------

theorem mapInsert_cons_self {α : Type} (k : String) (v v' : α)
    (rest : List (String × α)) :
    mapInsert ((k, v') :: rest) k v = (k, v) :: rest := by
  simp [mapInsert]

theorem mapInsert_cons_ne {α : Type} (k k' : String) (hk : k' ≠ k) (v v' : α)
    (rest : List (String × α)) :
    mapInsert ((k', v') :: rest) k v = (k', v') :: mapInsert rest k v := by
  simp [mapInsert, hk]

theorem mem_keys_mapInsert {α : Type} (m : List (String × α)) (k a : String)
    (v : α) :
    a ∈ (mapInsert m k v).map Prod.fst ↔ a = k ∨ a ∈ m.map Prod.fst := by
  induction m with
  | nil => simp [mapInsert]
  | cons kv rest ih =>
    obtain ⟨k', v'⟩ := kv
    by_cases hk : k' = k
    · subst hk
      rw [mapInsert_cons_self]
      simp only [List.map_cons, List.mem_cons]
      tauto
    · rw [mapInsert_cons_ne _ _ hk]
      simp only [List.map_cons, List.mem_cons, ih]
      tauto

theorem nodup_keys_mapInsert {α : Type} (m : List (String × α)) (k : String)
    (v : α) (h : (m.map Prod.fst).Nodup) :
    ((mapInsert m k v).map Prod.fst).Nodup := by
  induction m with
  | nil => simp [mapInsert]
  | cons kv rest ih =>
    obtain ⟨k', v'⟩ := kv
    simp only [List.map_cons, List.nodup_cons] at h
    by_cases hk : k' = k
    · subst hk
      rw [mapInsert_cons_self]
      simp only [List.map_cons, List.nodup_cons]
      exact h
    · rw [mapInsert_cons_ne _ _ hk]
      simp only [List.map_cons, List.nodup_cons]
      refine ⟨?_, ih h.2⟩
      rw [mem_keys_mapInsert]
      push_neg
      exact ⟨hk, h.1⟩

theorem lookup_mapInsert_self {α : Type} (m : List (String × α)) (k : String)
    (v : α) : List.lookup k (mapInsert m k v) = some v := by
  induction m with
  | nil => simp [mapInsert, List.lookup]
  | cons kv rest ih =>
    obtain ⟨k', v'⟩ := kv
    by_cases hk : k' = k
    · subst hk
      rw [mapInsert_cons_self]
      simp [List.lookup]
    · rw [mapInsert_cons_ne _ _ hk]
      have hne : (k == k') = false := beq_eq_false_iff_ne.mpr (Ne.symm hk)
      simp [List.lookup, hne, ih]

theorem lookup_mapInsert_ne {α : Type} (m : List (String × α)) (k a : String)
    (v : α) (h : a ≠ k) :
    List.lookup a (mapInsert m k v) = List.lookup a m := by
  induction m with
  | nil => simp [mapInsert, List.lookup, beq_eq_false_iff_ne.mpr h]
  | cons kv rest ih =>
    obtain ⟨k', v'⟩ := kv
    by_cases hk : k' = k
    · subst hk
      rw [mapInsert_cons_self]
      have hne : (a == k') = false := beq_eq_false_iff_ne.mpr h
      simp [List.lookup, hne]
    · rw [mapInsert_cons_ne _ _ hk]
      by_cases hak : a = k'
      · subst hak
        simp [List.lookup]
      · have hne : (a == k') = false := beq_eq_false_iff_ne.mpr hak
        simp [List.lookup, hne, ih]

-- Folding single-port insertion over a port list ----------------------------

theorem foldl_addPort_exposed_mem (l : List Int) (r : ContainerRunner)
    (a : String) :
    a ∈ (l.foldl addPort r).exposedPorts.map Prod.fst ↔
      a ∈ r.exposedPorts.map Prod.fst ∨ ∃ p ∈ l, toString p = a := by
  induction l generalizing r with
  | nil => simp
  | cons p l ih =>
    rw [List.foldl_cons, ih]
    simp only [addPort, mem_keys_mapInsert, List.mem_cons]
    constructor
    · rintro ((h | h) | h)
      · exact Or.inr ⟨p, Or.inl rfl, h.symm⟩
      · exact Or.inl h
      · obtain ⟨q, hq, hqa⟩ := h
        exact Or.inr ⟨q, Or.inr hq, hqa⟩
    · rintro (h | ⟨q, hq | hq, hqa⟩)
      · exact Or.inl (Or.inr h)
      · subst hq; exact Or.inl (Or.inl hqa.symm)
      · exact Or.inr ⟨q, hq, hqa⟩

theorem foldl_addPort_bindings_mem (l : List Int) (r : ContainerRunner)
    (a : String) :
    a ∈ (l.foldl addPort r).portBindings.map Prod.fst ↔
      a ∈ r.portBindings.map Prod.fst ∨ ∃ p ∈ l, toString p = a := by
  induction l generalizing r with
  | nil => simp
  | cons p l ih =>
    rw [List.foldl_cons, ih]
    simp only [addPort, mem_keys_mapInsert, List.mem_cons]
    constructor
    · rintro ((h | h) | h)
      · exact Or.inr ⟨p, Or.inl rfl, h.symm⟩
      · exact Or.inl h
      · obtain ⟨q, hq, hqa⟩ := h
        exact Or.inr ⟨q, Or.inr hq, hqa⟩
    · rintro (h | ⟨q, hq | hq, hqa⟩)
      · exact Or.inl (Or.inr h)
      · subst hq; exact Or.inl (Or.inl hqa.symm)
      · exact Or.inr ⟨q, hq, hqa⟩

theorem foldl_addPort_exposed_nodup (l : List Int) (r : ContainerRunner)
    (h : (r.exposedPorts.map Prod.fst).Nodup) :
    ((l.foldl addPort r).exposedPorts.map Prod.fst).Nodup := by
  induction l generalizing r with
  | nil => exact h
  | cons p l ih =>
    rw [List.foldl_cons]
    exact ih _ (by simpa [addPort] using nodup_keys_mapInsert _ _ _ h)

theorem foldl_addPort_bindings_nodup (l : List Int) (r : ContainerRunner)
    (h : (r.portBindings.map Prod.fst).Nodup) :
    ((l.foldl addPort r).portBindings.map Prod.fst).Nodup := by
  induction l generalizing r with
  | nil => exact h
  | cons p l ih =>
    rw [List.foldl_cons]
    exact ih _ (by simpa [addPort] using nodup_keys_mapInsert _ _ _ h)

theorem bindingsOk_addPort (r : ContainerRunner) (p : Int) (h : BindingsOk r) :
    BindingsOk (addPort r p) := by
  intro a ha
  simp only [addPort] at ha ⊢
  rw [mem_keys_mapInsert] at ha
  by_cases hap : a = toString p
  · subst hap
    rw [lookup_mapInsert_self]
  · rw [lookup_mapInsert_ne _ _ _ _ hap]
    rcases ha with ha | ha
    · exact absurd ha hap
    · exact h a ha

theorem bindingsOk_foldl (l : List Int) (r : ContainerRunner)
    (h : BindingsOk r) : BindingsOk (l.foldl addPort r) := by
  induction l generalizing r with
  | nil => exact h
  | cons p l ih =>
    rw [List.foldl_cons]
    exact ih _ (bindingsOk_addPort _ _ h)

-- A sequence of `WithPorts` calls is the single-port insertion folded over
-- the concatenation of all the calls' arguments.
theorem foldl_withPorts_eq_flatten (pss : List (List Int)) (r : ContainerRunner) :
    pss.foldl ContainerRunner.WithPorts r = pss.flatten.foldl addPort r := by
  induction pss generalizing r with
  | nil => rfl
  | cons ps pss ih =>
    simp [ContainerRunner.WithPorts, List.foldl_append, ih]

/-- C4: after any sequence of `WithPorts` calls on a fresh runner, the
exposed-port set and the port-binding map each hold exactly one entry per
distinct port of the cumulative input, and each port's binding is the single
entry mapping host address `127.0.0.1` with host port equal to the container
port. -/
theorem c4_with_ports_dedup (pss : List (List Int)) :
    ((pss.foldl ContainerRunner.WithPorts NewContainerRunner).exposedPorts.map
      Prod.fst).Nodup ∧
    ((pss.foldl ContainerRunner.WithPorts NewContainerRunner).portBindings.map
      Prod.fst).Nodup ∧
    (∀ a, a ∈ (pss.foldl ContainerRunner.WithPorts
        NewContainerRunner).exposedPorts.map Prod.fst ↔
      ∃ p ∈ pss.flatten, toString p = a) ∧
    (∀ a, a ∈ (pss.foldl ContainerRunner.WithPorts
        NewContainerRunner).portBindings.map Prod.fst ↔
      ∃ p ∈ pss.flatten, toString p = a) ∧
    (∀ p ∈ pss.flatten,
      List.lookup (toString p) (pss.foldl ContainerRunner.WithPorts
          NewContainerRunner).portBindings =
        some [{ HostIP := DefaultHostAddress, HostPort := toString p }]) := by
  rw [foldl_withPorts_eq_flatten]
  refine ⟨?_, ?_, ?_, ?_, ?_⟩
  · exact foldl_addPort_exposed_nodup _ _ (by simp [NewContainerRunner])
  · exact foldl_addPort_bindings_nodup _ _ (by simp [NewContainerRunner])
  · intro a
    rw [foldl_addPort_exposed_mem]
    simp [NewContainerRunner]
  · intro a
    rw [foldl_addPort_bindings_mem]
    simp [NewContainerRunner]
  · intro p hp
    refine bindingsOk_foldl _ _ ?_ (toString p) ?_
    · intro a ha
      simp [NewContainerRunner] at ha
    · rw [foldl_addPort_bindings_mem]
      exact Or.inr ⟨p, hp, rfl⟩

theorem c4_with_ports_dedup_witness :
    (([[80], [443, 80]].foldl ContainerRunner.WithPorts
        NewContainerRunner).exposedPorts.map Prod.fst).Nodup ∧
    List.lookup "80" ([[80], [443, 80]].foldl ContainerRunner.WithPorts
        NewContainerRunner).portBindings =
      some [{ HostIP := DefaultHostAddress, HostPort := "80" }] :=
  ⟨(c4_with_ports_dedup [[80], [443, 80]]).1,
   (c4_with_ports_dedup [[80], [443, 80]]).2.2.2.2 80 (by decide)⟩

end ContainerLib
